import Mathlib

set_option maxRecDepth 100000

/-!
Verification of the demo-sequencing driver of the minio-parseable audit-logging
repository, as implemented in `demo-app.js`.

The driver is embedded shallowly as a deterministic interpreter parameterised by
an `Oracle` that fixes every random draw (faker outputs) and every outcome of a
storage or filesystem call.  The interpreter threads an explicit local
filesystem (an association list from path to content), the remote bucket
contents (a list of object names), and emits a trace of `Event`s, one per
storage or filesystem call, mirroring the exact control flow of the source:
`try`/`catch` blocks become explicit success flags, a rethrown error aborts the
enclosing phase, and `runDemo`'s own `catch` turns any uncaught error into
`process.exit(1)`.
-/

/-- Local filesystem: association list from path to file content. -/
abbrev FS := List (String × String)

/-- `fs.writeFileSync`: overwrite the entry at `p` if present, else append it. -/
def fsWrite : FS → String → String → FS
  | [], p, c => [(p, c)]
  | e :: t, p, c => if e.1 = p then (p, c) :: t else e :: fsWrite t p c

/-- `fs.unlinkSync`: remove the entry at `p`. -/
def fsDelete : FS → String → FS
  | [], _ => []
  | e :: t, p => if e.1 = p then fsDelete t p else e :: fsDelete t p

/-- `fs.statSync` / `fs.existsSync`: look up the content stored at `p`. -/
def fsGet? : FS → String → Option String
  | [], _ => none
  | e :: t, p => if e.1 = p then some e.2 else fsGet? t p

/-- Putting an object into the bucket: S3 put overwrites, so the name list is
kept duplicate-free. -/
def insertObj (remote : List String) (name : String) : List String :=
  if name ∈ remote then remote else remote ++ [name]

/-- One storage/filesystem call of the driver, with its outcome. -/
inductive Event where
  | bucketExistsEv (ok : Bool) (res : Bool)
  | makeBucketEv (bucket : String) (ok : Bool)
  | setPolicyEv (ok : Bool)
  | writeEv (path : String) (size : Nat)
  | statEv (path : String) (ok : Bool)
  | putEv (i : Nat) (obj : String) (ok : Bool)
  | unlinkEv (i : Nat) (path : String) (ok : Bool)
  | listEv (ok : Bool)
  | getEv (i : Nat) (obj : String) (ok : Bool)
  | getPolicyEv (ok : Bool)
  | prefixListEv (ok : Bool) (count : Nat)
  | probeEv (obj : String) (err : Bool)
  | probeLogEv
  | locationEv (ok : Bool)
  deriving DecidableEq

/-- All the random draws and call outcomes a run of the driver can observe.
Functions are indexed by the position of the call (file index). -/
structure Oracle where
  bucketExistsOk : Bool
  bucketExistsRes : Bool
  makeBucketOk : Bool
  setPolicyOk : Bool
  numSeed : Nat
  nameSeed : Nat → String
  sizeSeed : Nat → Nat
  para : Nat → Nat → String
  putOk : Nat → Bool
  unlinkOk : Nat → Bool
  listOk : Bool
  getOk : Nat → Bool
  getPolicyOk : Bool
  prefixListOk : Bool
  probeErr : Bool
  locationOk : Bool

/-- `const bucketName = 'js-test-bucket'` in `demo-app.js`. -/
def bucketName : String := "js-test-bucket"

/-- `const uploadDir = './uploads'`. -/
def uploadDir : String := "./uploads"

/-- `const downloadDir = './downloads'`. -/
def downloadDir : String := "./downloads"

/-- `path.join`, kept as plain separator concatenation. -/
def pathJoin (d f : String) : String := d ++ "/" ++ f

/-- `faker.number.int(min, max)`: an integer uniform in `[lo, hi]`, modelled as
`lo` plus the oracle seed reduced modulo the width of the range. -/
def fakerInt (lo hi seed : Nat) : Nat := lo + seed % (hi - lo + 1)

/-- `faker.lorem.paragraphs(n)`: `n` oracle-chosen paragraphs joined by a
newline. -/
def loremParagraphs (para : Nat → String) (n : Nat) : String :=
  String.intercalate "\n" ((List.range n).map para)

/-- The record returned by `generateRandomFile`. -/
structure FileRec where
  fileName : String
  filePath : String
  size : Nat
  deriving DecidableEq

/-- Result of a phase that only emits events and can throw. -/
structure PhaseOut where
  events : List Event
  ok : Bool

/-- `createBucketIfNotExists`: the exists-check and the creation rethrow their
error (`ok := false`); the policy call has its own `catch` and never throws. -/
def createBucketIfNotExists (o : Oracle) : PhaseOut :=
  if !o.bucketExistsOk then
    ⟨[Event.bucketExistsEv false o.bucketExistsRes], false⟩
  else if !o.bucketExistsRes then
    if !o.makeBucketOk then
      ⟨[Event.bucketExistsEv true o.bucketExistsRes,
        Event.makeBucketEv bucketName false], false⟩
    else
      ⟨[Event.bucketExistsEv true o.bucketExistsRes,
        Event.makeBucketEv bucketName true,
        Event.setPolicyEv o.setPolicyOk], true⟩
  else
    ⟨[Event.bucketExistsEv true o.bucketExistsRes,
      Event.setPolicyEv o.setPolicyOk], true⟩

/-- Path of the `i`-th generated file: `path.join(uploadDir, fileName + '.txt')`. -/
def genPath (o : Oracle) (i : Nat) : String :=
  pathJoin uploadDir (o.nameSeed i ++ ".txt")

/-- Content of the `i`-th generated file: `Math.ceil(fileSize / 100)` lorem
paragraphs, where `fileSize` is drawn uniformly in `[1000, 50000]`. -/
def genContent (o : Oracle) (i : Nat) : String :=
  loremParagraphs (o.para i) ((fakerInt 1000 50000 (o.sizeSeed i) + 99) / 100)

/-- `generateRandomFile` at call position `i`: draw a name and a size, build the
content, write it to the upload directory, and return name, path and the length
of the content actually written. -/
def generateRandomFile (o : Oracle) (i : Nat) (fs : FS) : FileRec × FS × Event :=
  let fileName := o.nameSeed i ++ ".txt"
  let content := genContent o i
  let filePath := pathJoin uploadDir fileName
  (⟨fileName, filePath, content.length⟩, fsWrite fs filePath content,
    Event.writeEv filePath content.length)

/-- Result of the generation loop. -/
structure GenOut where
  files : List FileRec
  fs : FS
  events : List Event

/-- The `for (let i = 0; i < numFiles; i++)` generation loop, `k` files starting
at call position `i`. -/
def generateFilesFrom (o : Oracle) : Nat → Nat → FS → GenOut
  | _, 0, fs => ⟨[], fs, []⟩
  | i, k + 1, fs =>
    let (f, fs1, ev) := generateRandomFile o i fs
    let rest := generateFilesFrom o (i + 1) k fs1
    ⟨f :: rest.files, rest.fs, ev :: rest.events⟩

/-- Result of the upload loop. -/
structure UpOut where
  events : List Event
  fs : FS
  remote : List String
  ok : Bool

/-- `uploadFile` at loop position `i`: `statSync` throws when the path is
absent; a failed `fPutObject` and a failed `unlinkSync` both throw out of the
function (the `catch` rethrows); on full success the local copy is removed. -/
def uploadFile (o : Oracle) (i : Nat) (fileName filePath : String) (fs : FS)
    (remote : List String) : UpOut :=
  match fsGet? fs filePath with
  | none => ⟨[Event.statEv filePath false], fs, remote, false⟩
  | some _ =>
    if !o.putOk i then
      ⟨[Event.statEv filePath true, Event.putEv i fileName false], fs, remote, false⟩
    else if !o.unlinkOk i then
      ⟨[Event.statEv filePath true, Event.putEv i fileName true,
        Event.unlinkEv i filePath false], fs, insertObj remote fileName, false⟩
    else
      ⟨[Event.statEv filePath true, Event.putEv i fileName true,
        Event.unlinkEv i filePath true], fsDelete fs filePath,
        insertObj remote fileName, true⟩

/-- The upload loop: `await uploadFile(...)` inside `runDemo`'s `try`, so the
first thrown error stops the loop. -/
def uploadAll (o : Oracle) : Nat → List FileRec → FS → List String → UpOut
  | _, [], fs, remote => ⟨[], fs, remote, true⟩
  | i, f :: rest, fs, remote =>
    let u := uploadFile o i f.fileName f.filePath fs remote
    if u.ok then
      let r := uploadAll o (i + 1) rest u.fs u.remote
      ⟨u.events ++ r.events, r.fs, r.remote, r.ok⟩
    else
      ⟨u.events, u.fs, u.remote, false⟩

/-- `listObjects`: a recursive listing of the bucket; a stream error rejects the
promise and rethrows. -/
def listObjectsRun (o : Oracle) (remote : List String) : PhaseOut × Option Nat :=
  if o.listOk then (⟨[Event.listEv true], true⟩, some remote.length)
  else (⟨[Event.listEv false], false⟩, none)

/-- Result of the download loop. -/
structure DlOut where
  events : List Event
  fs : FS
  done : List String
  ok : Bool

/-- `downloadFile` at loop position `i`: a failed `fGetObject` throws; on
success the object is written under `downloaded_` in the download directory and
`statSync` on the fresh file succeeds. -/
def downloadFile (o : Oracle) (i : Nat) (fileName : String) (fs : FS) : DlOut :=
  let downloadPath := pathJoin downloadDir ("downloaded_" ++ fileName)
  if !o.getOk i then
    ⟨[Event.getEv i fileName false], fs, [], false⟩
  else
    ⟨[Event.getEv i fileName true, Event.statEv downloadPath true],
      fsWrite fs downloadPath "", [fileName], true⟩

/-- The download loop over the first `min(2, n)` files. -/
def downloadAll (o : Oracle) : Nat → List FileRec → FS → DlOut
  | _, [], fs => ⟨[], fs, [], true⟩
  | i, f :: rest, fs =>
    let d := downloadFile o i f.fileName fs
    if d.ok then
      let r := downloadAll o (i + 1) rest d.fs
      ⟨d.events ++ r.events, r.fs, d.done ++ r.done, r.ok⟩
    else
      ⟨d.events, d.fs, d.done, false⟩

/-- `performAdditionalOperations`: its outer `catch` swallows every error, so it
never throws.  The policy fetch has a local `catch`; a failed prefix listing
jumps to the outer `catch` and skips the 404 probe and the location fetch; the
404 probe logs a message only in its `catch` branch; the location fetch has a
local `catch`. -/
def performAdditionalOperations (o : Oracle) (remote : List String) : List Event :=
  [Event.getPolicyEv o.getPolicyOk] ++
    (if !o.prefixListOk then
      [Event.prefixListEv false ((remote.filter (fun s => s.startsWith "sample")).length)]
    else
      [Event.prefixListEv true ((remote.filter (fun s => s.startsWith "sample")).length),
        Event.probeEv "non-existent-file.txt" o.probeErr] ++
        (if o.probeErr then [Event.probeLogEv] else []) ++
        [Event.locationEv o.locationOk])

/-- Everything observable about one run of `runDemo`: the call trace, the
process exit status, the generated file records, snapshots of the local store
just before and just after the upload phase, the count reported by the full
listing, and the files actually downloaded. -/
structure RunResult where
  trace : List Event
  exitCode : Nat
  genFiles : List FileRec
  fsBeforeUpload : Option FS
  fsAfterUpload : Option FS
  listedCount : Option Nat
  downloadsDone : List String

/-- `runDemo`, with the initial local store and initial bucket contents as
parameters: every `await` that rethrows inside the big `try` jumps to the
`catch`, which calls `process.exit(1)`; reaching the end exits `0`. -/
def runDemo (o : Oracle) (fs0 : FS) (remote0 : List String) : RunResult :=
  let b := createBucketIfNotExists o
  if !b.ok then
    ⟨b.events, 1, [], none, none, none, []⟩
  else
    let numFiles := fakerInt 1 5 o.numSeed
    let g := generateFilesFrom o 0 numFiles fs0
    let u := uploadAll o 0 g.files g.fs remote0
    if !u.ok then
      ⟨b.events ++ g.events ++ u.events, 1, g.files, some g.fs, none, none, []⟩
    else
      let l := listObjectsRun o u.remote
      if !l.1.ok then
        ⟨b.events ++ g.events ++ u.events ++ l.1.events, 1, g.files, some g.fs,
          some u.fs, none, []⟩
      else
        let toDl := g.files.take (min 2 g.files.length)
        let d := downloadAll o 0 toDl u.fs
        if !d.ok then
          ⟨b.events ++ g.events ++ u.events ++ l.1.events ++ d.events, 1,
            g.files, some g.fs, some u.fs, l.2, d.done⟩
        else
          let a := performAdditionalOperations o u.remote
          ⟨b.events ++ g.events ++ u.events ++ l.1.events ++ d.events ++ a, 0,
            g.files, some g.fs, some u.fs, l.2, d.done⟩

/-! ## Derived notions used to state and prove the claims -/

/-- The list of call positions `i, i+1, …, i+k-1`. -/
def idxRange : Nat → Nat → List Nat
  | _, 0 => []
  | i, k + 1 => i :: idxRange (i + 1) k

/-- The record `generateRandomFile` produces at call position `j`. -/
def genRec (o : Oracle) (j : Nat) : FileRec :=
  ⟨o.nameSeed j ++ ".txt", genPath o j, (genContent o j).length⟩

/-- Writing a batch of path/content pairs in order. -/
def writeAll (fs : FS) (pcs : List (String × String)) : FS :=
  pcs.foldl (fun a pc => fsWrite a pc.1 pc.2) fs

/-- Is the event an `fPutObject` call? -/
def isPutCall : Event → Bool
  | Event.putEv _ _ _ => true
  | _ => false

/-- Is the event a `listObjects` call (full or prefixed)? -/
def isListCall : Event → Bool
  | Event.listEv _ => true
  | Event.prefixListEv _ _ => true
  | _ => false

/-- Is the event an `fGetObject` call? -/
def isGetCall : Event → Bool
  | Event.getEv _ _ _ => true
  | _ => false

/-- Upload positions whose `fPutObject` succeeded, accumulated along a trace. -/
def seenPuts : List Nat → List Event → List Nat
  | seen, [] => seen
  | seen, Event.putEv i _ true :: rest => seenPuts (i :: seen) rest
  | seen, _ :: rest => seenPuts seen rest

/-- Checks that every local-delete attempt in the trace concerns an upload
position whose `fPutObject` already returned success. -/
def delAfterUpload : List Nat → List Event → Bool
  | _, [] => true
  | seen, Event.putEv i _ true :: rest => delAfterUpload (i :: seen) rest
  | seen, Event.unlinkEv i _ _ :: rest => seen.contains i && delAfterUpload seen rest
  | seen, _ :: rest => delAfterUpload seen rest

/-! ## Filesystem lemmas -/

theorem fsGet?_fsWrite_self (fs : FS) (p c : String) :
    fsGet? (fsWrite fs p c) p = some c := by
  induction fs with
  | nil => simp [fsWrite, fsGet?]
  | cons e t ih =>
    by_cases h : e.1 = p <;> simp [fsWrite, fsGet?, h, ih]

theorem fsGet?_fsWrite_ne (fs : FS) (p c q : String) (hq : q ≠ p) :
    fsGet? (fsWrite fs p c) q = fsGet? fs q := by
  induction fs with
  | nil => simp [fsWrite, fsGet?, Ne.symm hq]
  | cons e t ih =>
    by_cases h : e.1 = p
    · simp [fsWrite, fsGet?, h, Ne.symm hq]
    · simp [fsWrite, fsGet?, h, ih]

theorem fsWrite_length_fresh (fs : FS) (p c : String) (h : fsGet? fs p = none) :
    (fsWrite fs p c).length = fs.length + 1 := by
  induction fs with
  | nil => simp [fsWrite]
  | cons e t ih =>
    by_cases he : e.1 = p
    · simp [fsGet?, he] at h
    · simp [fsGet?, he] at h
      simp [fsWrite, he, ih h]

theorem mem_fsWrite (fs : FS) (p c : String) (e : String × String)
    (h : e ∈ fsWrite fs p c) : e ∈ fs ∨ e = (p, c) := by
  induction fs with
  | nil =>
    simp [fsWrite] at h
    exact Or.inr h
  | cons f t ih =>
    by_cases hf : f.1 = p
    · simp [fsWrite, hf] at h
      rcases h with h | h
      · exact Or.inr h
      · exact Or.inl (List.mem_cons_of_mem f h)
    · simp [fsWrite, hf] at h
      rcases h with h | h
      · exact Or.inl (by rw [h]; exact List.mem_cons_self f t)
      · rcases ih h with h2 | h2
        · exact Or.inl (List.mem_cons_of_mem f h2)
        · exact Or.inr h2

theorem fsDelete_eq_filter (fs : FS) (p : String) :
    fsDelete fs p = fs.filter (fun e => e.1 ≠ p) := by
  induction fs with
  | nil => rfl
  | cons f t ih =>
    by_cases hf : f.1 = p <;> simp [fsDelete, hf, ih]

theorem mem_fsDelete (fs : FS) (p : String) (e : String × String) :
    e ∈ fsDelete fs p ↔ e ∈ fs ∧ e.1 ≠ p := by
  rw [fsDelete_eq_filter]
  simp [List.mem_filter]

theorem foldl_fsDelete_nil (paths : List String) (fs : FS)
    (h : ∀ e ∈ fs, e.1 ∈ paths) : paths.foldl fsDelete fs = [] := by
  induction paths generalizing fs with
  | nil =>
    cases fs with
    | nil => rfl
    | cons e t => exact absurd (h e (by simp)) (by simp)
  | cons p rest ih =>
    simp only [List.foldl_cons]
    apply ih
    intro e he
    have := (mem_fsDelete fs p e).mp he
    have hmem := h e this.1
    simp at hmem
    rcases hmem with hmem | hmem
    · exact absurd hmem this.2
    · exact hmem

theorem writeAll_length (pcs : List (String × String)) (fs : FS)
    (hnd : (pcs.map Prod.fst).Nodup) (hfresh : ∀ pc ∈ pcs, fsGet? fs pc.1 = none) :
    (writeAll fs pcs).length = fs.length + pcs.length := by
  induction pcs generalizing fs with
  | nil => simp [writeAll]
  | cons pc rest ih =>
    simp only [writeAll, List.foldl_cons]
    have h1 : (fsWrite fs pc.1 pc.2).length = fs.length + 1 :=
      fsWrite_length_fresh fs pc.1 pc.2 (hfresh pc (by simp))
    have hnd2 : (rest.map Prod.fst).Nodup := (List.nodup_cons.mp hnd).2
    have hfresh2 : ∀ qc ∈ rest, fsGet? (fsWrite fs pc.1 pc.2) qc.1 = none := by
      intro qc hqc
      have hne : qc.1 ≠ pc.1 := by
        intro heq
        exact (List.nodup_cons.mp hnd).1 (heq ▸ List.mem_map_of_mem Prod.fst hqc)
      rw [fsGet?_fsWrite_ne fs pc.1 pc.2 qc.1 hne]
      exact hfresh qc (by simp [hqc])
    have h2 := ih (fsWrite fs pc.1 pc.2) hnd2 hfresh2
    simp only [writeAll, List.foldl_cons] at h2 ⊢
    rw [h2, h1]
    simp [List.length_cons]
    omega

theorem mem_writeAll (pcs : List (String × String)) (fs : FS) (e : String × String)
    (h : e ∈ writeAll fs pcs) : e ∈ fs ∨ e.1 ∈ pcs.map Prod.fst := by
  induction pcs generalizing fs with
  | nil => simp [writeAll] at h; simp [h]
  | cons pc rest ih =>
    simp only [writeAll, List.foldl_cons] at h
    rcases ih (fsWrite fs pc.1 pc.2) h with h2 | h2
    · rcases mem_fsWrite fs pc.1 pc.2 e h2 with h3 | h3
      · exact Or.inl h3
      · right; simp [h3]
    · right; simp [h2]

/-! ## Generation-loop lemmas -/

theorem idxRange_length (i k : Nat) : (idxRange i k).length = k := by
  induction k generalizing i with
  | zero => rfl
  | succ k ih => simp [idxRange, ih]

theorem generateFilesFrom_files (o : Oracle) (k i : Nat) (fs : FS) :
    (generateFilesFrom o i k fs).files = (idxRange i k).map (genRec o) := by
  induction k generalizing i fs with
  | zero => rfl
  | succ k ih =>
    simp [generateFilesFrom, generateRandomFile, idxRange, ih, genRec, genPath]

theorem generateFilesFrom_fs (o : Oracle) (k i : Nat) (fs : FS) :
    (generateFilesFrom o i k fs).fs =
      writeAll fs ((idxRange i k).map (fun j => (genPath o j, genContent o j))) := by
  induction k generalizing i fs with
  | zero => rfl
  | succ k ih =>
    simp [generateFilesFrom, generateRandomFile, idxRange, writeAll, ih, genPath]

theorem generateFilesFrom_events (o : Oracle) (k i : Nat) (fs : FS) :
    (generateFilesFrom o i k fs).events =
      (idxRange i k).map (fun j => Event.writeEv (genPath o j) (genContent o j).length) := by
  induction k generalizing i fs with
  | zero => rfl
  | succ k ih =>
    simp [generateFilesFrom, generateRandomFile, idxRange, ih, genPath]

theorem generateFilesFrom_length (o : Oracle) (k i : Nat) (fs : FS) :
    (generateFilesFrom o i k fs).files.length = k := by
  rw [generateFilesFrom_files]
  simp [idxRange_length]

/-! ## Upload-loop lemmas -/

theorem uploadFile_ok_fs (o : Oracle) (i : Nat) (n p : String) (fs : FS)
    (r : List String) (h : (uploadFile o i n p fs r).ok = true) :
    (uploadFile o i n p fs r).fs = fsDelete fs p := by
  cases hg : fsGet? fs p with
  | none => simp [uploadFile, hg] at h
  | some c =>
    cases hp : o.putOk i with
    | false => simp [uploadFile, hg, hp] at h
    | true =>
      cases hu : o.unlinkOk i with
      | false => simp [uploadFile, hg, hp, hu] at h
      | true => simp [uploadFile, hg, hp, hu]

theorem uploadAll_ok_fs (o : Oracle) (files : List FileRec) :
    ∀ i fs remote, (uploadAll o i files fs remote).ok = true →
      (uploadAll o i files fs remote).fs =
        files.foldl (fun a f => fsDelete a f.filePath) fs := by
  induction files with
  | nil => intro i fs remote _; simp [uploadAll]
  | cons f rest ih =>
    intro i fs remote h
    by_cases hu : (uploadFile o i f.fileName f.filePath fs remote).ok = true
    · simp only [uploadAll, hu, if_true] at h ⊢
      rw [ih (i + 1) _ _ h, uploadFile_ok_fs o i f.fileName f.filePath fs remote hu]
      simp
    · simp only [uploadAll, Bool.not_eq_true] at h ⊢
      rw [Bool.not_eq_true] at hu
      simp [hu] at h

theorem uploadAll_ok_no_unlink_fail (o : Oracle) (files : List FileRec) :
    ∀ i fs remote, (uploadAll o i files fs remote).ok = true →
      ∀ j p, Event.unlinkEv j p false ∉ (uploadAll o i files fs remote).events := by
  induction files with
  | nil => intro i fs remote _ j p; simp [uploadAll]
  | cons f rest ih =>
    intro i fs remote h j p
    by_cases hu : (uploadFile o i f.fileName f.filePath fs remote).ok = true
    · simp only [uploadAll, hu, if_true] at h ⊢
      intro hm
      rcases List.mem_append.mp hm with hm | hm
      · cases hg : fsGet? fs f.filePath with
        | none => simp [uploadFile, hg] at hu
        | some c =>
          cases hp : o.putOk i with
          | false => simp [uploadFile, hg, hp] at hu
          | true =>
            cases hul : o.unlinkOk i with
            | false => simp [uploadFile, hg, hp, hul] at hu
            | true => simp [uploadFile, hg, hp, hul] at hm
      · exact ih (i + 1) _ _ h j p hm
    · rw [Bool.not_eq_true] at hu
      simp [uploadAll, hu] at h

/-! ## Download-loop lemmas -/

theorem downloadAll_ok_done (o : Oracle) (files : List FileRec) :
    ∀ i fs, (downloadAll o i files fs).ok = true →
      (downloadAll o i files fs).done = files.map FileRec.fileName := by
  induction files with
  | nil => intro i fs _; simp [downloadAll]
  | cons f rest ih =>
    intro i fs h
    by_cases hd : o.getOk i = true
    · simp only [downloadAll, downloadFile, hd, Bool.not_true, Bool.false_eq_true,
        if_false, if_true] at h ⊢
      simp at h ⊢
      exact ih (i + 1) _ h
    · rw [Bool.not_eq_true] at hd
      simp [downloadAll, downloadFile, hd] at h

/-! ## Event-shape lemmas: which events each phase can emit -/

/-- Events the bucket phase can emit. -/
def isBucketPhaseEv : Event → Bool
  | Event.bucketExistsEv _ _ => true
  | Event.makeBucketEv _ _ => true
  | Event.setPolicyEv _ => true
  | _ => false

/-- Events the generation phase can emit. -/
def isWriteEv : Event → Bool
  | Event.writeEv _ _ => true
  | _ => false

/-- Events the upload phase can emit. -/
def isUploadPhaseEv : Event → Bool
  | Event.statEv _ _ => true
  | Event.putEv _ _ _ => true
  | Event.unlinkEv _ _ _ => true
  | _ => false

/-- Events the download phase can emit. -/
def isDownloadPhaseEv : Event → Bool
  | Event.getEv _ _ _ => true
  | Event.statEv _ _ => true
  | _ => false

/-- Events the additional-operations phase can emit. -/
def isExtraPhaseEv : Event → Bool
  | Event.getPolicyEv _ => true
  | Event.prefixListEv _ _ => true
  | Event.probeEv _ _ => true
  | Event.probeLogEv => true
  | Event.locationEv _ => true
  | _ => false

theorem not_mem_of_all_not (l : List Event) (p : Event → Bool) (x : Event)
    (hall : l.all p = true) (hx : p x = false) : x ∉ l := by
  intro hm
  have := List.all_eq_true.mp hall x hm
  rw [hx] at this
  exact Bool.false_ne_true this

theorem bucket_events_shape (o : Oracle) :
    (createBucketIfNotExists o).events.all isBucketPhaseEv = true := by
  cases hbe : o.bucketExistsOk <;> cases hbr : o.bucketExistsRes <;>
    cases hmb : o.makeBucketOk <;>
    simp [createBucketIfNotExists, hbe, hbr, hmb, isBucketPhaseEv]

theorem gen_events_shape (o : Oracle) (k i : Nat) (fs : FS) :
    (generateFilesFrom o i k fs).events.all isWriteEv = true := by
  rw [generateFilesFrom_events]
  simp [List.all_eq_true, isWriteEv]

theorem upload_events_shape (o : Oracle) (files : List FileRec) :
    ∀ i fs remote, (uploadAll o i files fs remote).events.all isUploadPhaseEv = true := by
  induction files with
  | nil => intro i fs remote; simp [uploadAll]
  | cons f rest ih =>
    intro i fs remote
    have hfile : (uploadFile o i f.fileName f.filePath fs remote).events.all
        isUploadPhaseEv = true := by
      cases hg : fsGet? fs f.filePath with
      | none => simp [uploadFile, hg, isUploadPhaseEv]
      | some c =>
        cases hp : o.putOk i <;> cases hul : o.unlinkOk i <;>
          simp [uploadFile, hg, hp, hul, isUploadPhaseEv]
    by_cases hu : (uploadFile o i f.fileName f.filePath fs remote).ok = true
    · simp only [uploadAll, hu, if_true, List.all_append]
      simp [hfile, ih (i + 1)]
    · rw [Bool.not_eq_true] at hu
      simp only [uploadAll, hu, Bool.false_eq_true, if_false]
      exact hfile

theorem download_events_shape (o : Oracle) (files : List FileRec) :
    ∀ i fs, (downloadAll o i files fs).events.all isDownloadPhaseEv = true := by
  induction files with
  | nil => intro i fs; simp [downloadAll]
  | cons f rest ih =>
    intro i fs
    have hfile : (downloadFile o i f.fileName fs).events.all isDownloadPhaseEv = true := by
      cases hd : o.getOk i <;> simp [downloadFile, hd, isDownloadPhaseEv]
    by_cases hd : (downloadFile o i f.fileName fs).ok = true
    · simp only [downloadAll, hd, if_true, List.all_append]
      simp [hfile, ih (i + 1)]
    · rw [Bool.not_eq_true] at hd
      simp only [downloadAll, hd, Bool.false_eq_true, if_false]
      exact hfile

theorem list_events_shape (o : Oracle) (r : List String) :
    (listObjectsRun o r).1.events.all isListCall = true := by
  cases hl : o.listOk <;> simp [listObjectsRun, hl, isListCall]

theorem extra_events_shape (o : Oracle) (r : List String) :
    (performAdditionalOperations o r).all isExtraPhaseEv = true := by
  cases hp : o.prefixListOk <;> cases he : o.probeErr <;>
    simp [performAdditionalOperations, hp, he, isExtraPhaseEv]

/-! ## `listObjectsRun` projections -/

theorem listObjectsRun_ok (o : Oracle) (r : List String) :
    (listObjectsRun o r).1.ok = o.listOk := by
  cases hl : o.listOk <;> simp [listObjectsRun, hl]

theorem listObjectsRun_events (o : Oracle) (r : List String) :
    (listObjectsRun o r).1.events = [Event.listEv o.listOk] := by
  cases hl : o.listOk <;> simp [listObjectsRun, hl]

theorem listObjectsRun_count (o : Oracle) (r : List String) (h : o.listOk = true) :
    (listObjectsRun o r).2 = some r.length := by
  simp [listObjectsRun, h]

/-! ## Delete-only-after-successful-upload lemmas -/

theorem delAfterUpload_append (l1 l2 : List Event) :
    ∀ seen, delAfterUpload seen (l1 ++ l2) =
      (delAfterUpload seen l1 && delAfterUpload (seenPuts seen l1) l2) := by
  induction l1 with
  | nil => intro seen; simp [delAfterUpload, seenPuts]
  | cons e t ih =>
    intro seen
    cases e with
    | putEv i obj ok =>
      cases ok <;> simp [delAfterUpload, seenPuts, ih]
    | unlinkEv i p ok =>
      simp [delAfterUpload, seenPuts, ih, Bool.and_assoc]
    | bucketExistsEv a b => simp [delAfterUpload, seenPuts, ih]
    | makeBucketEv a b => simp [delAfterUpload, seenPuts, ih]
    | setPolicyEv a => simp [delAfterUpload, seenPuts, ih]
    | writeEv a b => simp [delAfterUpload, seenPuts, ih]
    | statEv a b => simp [delAfterUpload, seenPuts, ih]
    | listEv a => simp [delAfterUpload, seenPuts, ih]
    | getEv a b c => simp [delAfterUpload, seenPuts, ih]
    | getPolicyEv a => simp [delAfterUpload, seenPuts, ih]
    | prefixListEv a b => simp [delAfterUpload, seenPuts, ih]
    | probeEv a b => simp [delAfterUpload, seenPuts, ih]
    | probeLogEv => simp [delAfterUpload, seenPuts, ih]
    | locationEv a => simp [delAfterUpload, seenPuts, ih]

theorem delAfterUpload_of_all (l : List Event) (p : Event → Bool)
    (hp : ∀ i q b, p (Event.unlinkEv i q b) = false) :
    l.all p = true → ∀ seen, delAfterUpload seen l = true := by
  induction l with
  | nil => intro _ seen; rfl
  | cons e t ih =>
    intro h seen
    rw [List.all_cons] at h
    have he : p e = true := by
      cases hx : p e
      · rw [hx] at h; simp at h
      · rfl
    have ht : t.all p = true := by
      cases hx : t.all p
      · rw [hx] at h; simp at h
      · rfl
    cases e with
    | unlinkEv i q b => rw [hp i q b] at he; exact absurd he (by simp)
    | putEv i obj ok => cases ok <;> simp [delAfterUpload, ih ht]
    | bucketExistsEv a b => simp [delAfterUpload, ih ht]
    | makeBucketEv a b => simp [delAfterUpload, ih ht]
    | setPolicyEv a => simp [delAfterUpload, ih ht]
    | writeEv a b => simp [delAfterUpload, ih ht]
    | statEv a b => simp [delAfterUpload, ih ht]
    | listEv a => simp [delAfterUpload, ih ht]
    | getEv a b c => simp [delAfterUpload, ih ht]
    | getPolicyEv a => simp [delAfterUpload, ih ht]
    | prefixListEv a b => simp [delAfterUpload, ih ht]
    | probeEv a b => simp [delAfterUpload, ih ht]
    | probeLogEv => simp [delAfterUpload, ih ht]
    | locationEv a => simp [delAfterUpload, ih ht]

theorem delAfterUpload_uploadAll (o : Oracle) (files : List FileRec) :
    ∀ i fs remote seen,
      delAfterUpload seen (uploadAll o i files fs remote).events = true := by
  induction files with
  | nil => intro i fs remote seen; simp [uploadAll]; rfl
  | cons f rest ih =>
    intro i fs remote seen
    have hfile : ∀ s, delAfterUpload s (uploadFile o i f.fileName f.filePath fs remote).events
        = true := by
      intro s
      cases hg : fsGet? fs f.filePath with
      | none => simp [uploadFile, hg, delAfterUpload]
      | some c =>
        cases hp : o.putOk i <;> cases hul : o.unlinkOk i <;>
          simp [uploadFile, hg, hp, hul, delAfterUpload, List.contains_cons]
    by_cases hu : (uploadFile o i f.fileName f.filePath fs remote).ok = true
    · simp only [uploadAll, hu, if_true]
      rw [delAfterUpload_append]
      simp [hfile, ih (i + 1)]
    · rw [Bool.not_eq_true] at hu
      simp only [uploadAll, hu, Bool.false_eq_true, if_false]
      exact hfile seen

/-! ## Named sub-results of a run, and the branch structure of `runDemo` -/

/-- The count of files `runDemo` generates: `faker.number.int(1, 5)`. -/
def numFilesOf (o : Oracle) : Nat := fakerInt 1 5 o.numSeed

/-- The generation phase of a run. -/
def genOf (o : Oracle) (fs0 : FS) : GenOut :=
  generateFilesFrom o 0 (numFilesOf o) fs0

/-- The upload phase of a run. -/
def upOf (o : Oracle) (fs0 : FS) (r0 : List String) : UpOut :=
  uploadAll o 0 (genOf o fs0).files (genOf o fs0).fs r0

/-- The download phase of a run. -/
def dlOf (o : Oracle) (fs0 : FS) (r0 : List String) : DlOut :=
  downloadAll o 0 ((genOf o fs0).files.take (min 2 (genOf o fs0).files.length))
    (upOf o fs0 r0).fs

theorem runDemo_bucket_fail (o : Oracle) (fs0 : FS) (r0 : List String)
    (h : (createBucketIfNotExists o).ok = false) :
    runDemo o fs0 r0 = ⟨(createBucketIfNotExists o).events, 1, [], none, none, none, []⟩ := by
  simp [runDemo, h]

theorem runDemo_upload_fail (o : Oracle) (fs0 : FS) (r0 : List String)
    (hb : (createBucketIfNotExists o).ok = true)
    (hu : (upOf o fs0 r0).ok = false) :
    runDemo o fs0 r0 = ⟨(createBucketIfNotExists o).events ++ (genOf o fs0).events
      ++ (upOf o fs0 r0).events, 1, (genOf o fs0).files, some (genOf o fs0).fs,
      none, none, []⟩ := by
  simp only [upOf, genOf, numFilesOf] at hu ⊢
  simp [runDemo, hb, hu]

theorem runDemo_list_fail (o : Oracle) (fs0 : FS) (r0 : List String)
    (hb : (createBucketIfNotExists o).ok = true)
    (hu : (upOf o fs0 r0).ok = true)
    (hl : o.listOk = false) :
    runDemo o fs0 r0 = ⟨(createBucketIfNotExists o).events ++ (genOf o fs0).events
      ++ (upOf o fs0 r0).events ++ [Event.listEv false], 1, (genOf o fs0).files,
      some (genOf o fs0).fs, some (upOf o fs0 r0).fs, none, []⟩ := by
  simp only [upOf, genOf, numFilesOf] at hu ⊢
  simp [runDemo, hb, hu, listObjectsRun, hl]

theorem runDemo_download_fail (o : Oracle) (fs0 : FS) (r0 : List String)
    (hb : (createBucketIfNotExists o).ok = true)
    (hu : (upOf o fs0 r0).ok = true)
    (hl : o.listOk = true)
    (hd : (dlOf o fs0 r0).ok = false) :
    runDemo o fs0 r0 = ⟨(createBucketIfNotExists o).events ++ (genOf o fs0).events
      ++ (upOf o fs0 r0).events ++ [Event.listEv true] ++ (dlOf o fs0 r0).events, 1,
      (genOf o fs0).files, some (genOf o fs0).fs, some (upOf o fs0 r0).fs,
      some (upOf o fs0 r0).remote.length, (dlOf o fs0 r0).done⟩ := by
  simp only [dlOf, upOf, genOf, numFilesOf] at hu hd ⊢
  simp [runDemo, hb, hu, listObjectsRun, hl, hd]

theorem runDemo_success (o : Oracle) (fs0 : FS) (r0 : List String)
    (hb : (createBucketIfNotExists o).ok = true)
    (hu : (upOf o fs0 r0).ok = true)
    (hl : o.listOk = true)
    (hd : (dlOf o fs0 r0).ok = true) :
    runDemo o fs0 r0 = ⟨(createBucketIfNotExists o).events ++ (genOf o fs0).events
      ++ (upOf o fs0 r0).events ++ [Event.listEv true] ++ (dlOf o fs0 r0).events
      ++ performAdditionalOperations o (upOf o fs0 r0).remote, 0,
      (genOf o fs0).files, some (genOf o fs0).fs, some (upOf o fs0 r0).fs,
      some (upOf o fs0 r0).remote.length, (dlOf o fs0 r0).done⟩ := by
  simp only [dlOf, upOf, genOf, numFilesOf] at hu hd ⊢
  simp [runDemo, hb, hu, listObjectsRun, hl, hd]

/-! ## Arithmetic of the uniform draw -/

theorem fakerInt_mem (lo hi seed : Nat) (h : lo ≤ hi) :
    lo ≤ fakerInt lo hi seed ∧ fakerInt lo hi seed ≤ hi := by
  unfold fakerInt
  have h2 : seed % (hi - lo + 1) < hi - lo + 1 := Nat.mod_lt seed (by omega)
  omega

/-! ## Concrete oracles used as witnesses and counterexamples -/

/-- A run in which the very first storage call, the bucket-existence check,
fails. -/
def bucketFailOracle : Oracle :=
  { bucketExistsOk := false, bucketExistsRes := false, makeBucketOk := true,
    setPolicyOk := true, numSeed := 0,
    nameSeed := fun _ => "a",
    sizeSeed := fun _ => 0,
    para := fun _ _ => "Lorem ipsum dolor sit amet, consectetur.",
    putOk := fun _ => true, unlinkOk := fun _ => true, listOk := true,
    getOk := fun _ => true, getPolicyOk := true, prefixListOk := true,
    probeErr := true, locationOk := true }

/-- A fully successful run: fresh bucket, three files with distinct names,
every storage call succeeds; the drawn size parameter is 1000, so each file is
10 lorem paragraphs. -/
def sizeCounterOracle : Oracle :=
  { bucketExistsOk := true, bucketExistsRes := false, makeBucketOk := true,
    setPolicyOk := true, numSeed := 2,
    nameSeed := fun i => if i = 0 then "alpha" else if i = 1 then "beta" else "gamma",
    sizeSeed := fun _ => 0,
    para := fun _ _ => "Lorem ipsum dolor sit amet, consectetur.",
    putOk := fun _ => true, unlinkOk := fun _ => true, listOk := true,
    getOk := fun _ => true, getPolicyOk := true, prefixListOk := true,
    probeErr := true, locationOk := true }

/-- **C3** (amended): for every file produced by `generateRandomFile`, the
drawn size parameter lies within [1000, 50000]; the size recorded and written
to disk is the length of `ceil(d/100)` joined lorem paragraphs, which the code
does not constrain to that interval. -/
theorem c3_drawn_size_in_range (o : Oracle) (i : Nat) (fs : FS) :
    1000 ≤ fakerInt 1000 50000 (o.sizeSeed i)
    ∧ fakerInt 1000 50000 (o.sizeSeed i) ≤ 50000
    ∧ (generateRandomFile o i fs).1.size = (genContent o i).length
    ∧ fsGet? (generateRandomFile o i fs).2.1 (genPath o i) = some (genContent o i) := by
  refine ⟨(fakerInt_mem 1000 50000 _ (by omega)).1,
    (fakerInt_mem 1000 50000 _ (by omega)).2, rfl, ?_⟩
  simpa [generateRandomFile, genPath] using
    fsGet?_fsWrite_self fs (genPath o i) (genContent o i)

/-- **C3** counterexample: with the drawn parameter 1000 and plausible short
faker paragraphs (40 characters each), `generateRandomFile` writes a file of
409 bytes, outside the claimed interval [1000, 50000]. -/
theorem c3_counterexample :
    (generateRandomFile sizeCounterOracle 0 []).1.size = 409
    ∧ fsGet? (generateRandomFile sizeCounterOracle 0 []).2.1
        (genPath sizeCounterOracle 0) = some (genContent sizeCounterOracle 0)
    ∧ (genContent sizeCounterOracle 0).length < 1000 := by
  refine ⟨by decide, ?_, by decide⟩
  simpa [generateRandomFile, genPath] using
    fsGet?_fsWrite_self [] (genPath sizeCounterOracle 0) (genContent sizeCounterOracle 0)

/-- **C10**: the size returned by `generateRandomFile` equals the length of the
content string actually written to disk, that content being `ceil(d/100)` lorem
paragraphs for a drawn `d` in [1000, 50000]; `d` determines only the paragraph
count and is not itself the written size (there is an oracle where the two
differ). -/
theorem c10_size_is_written_content_length :
    (∀ (o : Oracle) (i : Nat) (fs : FS),
      (generateRandomFile o i fs).1.size = (genContent o i).length
      ∧ genContent o i =
          loremParagraphs (o.para i) ((fakerInt 1000 50000 (o.sizeSeed i) + 99) / 100)
      ∧ fsGet? (generateRandomFile o i fs).2.1 (genPath o i) = some (genContent o i))
    ∧ (generateRandomFile sizeCounterOracle 0 []).1.size ≠
        fakerInt 1000 50000 (sizeCounterOracle.sizeSeed 0) := by
  constructor
  · intro o i fs
    refine ⟨rfl, rfl, ?_⟩
    simpa [generateRandomFile, genPath] using
      fsGet?_fsWrite_self fs (genPath o i) (genContent o i)
  · decide

/-- **C1**: if the bucket-existence check or the bucket creation fails (that
is, `createBucketIfNotExists` rethrows), the run exits with status 1 and its
trace contains no `fPutObject`, no `listObjects` (full or prefixed) and no
`fGetObject` call. -/
theorem c1_bucket_failure_aborts (o : Oracle) (fs0 : FS) (r0 : List String)
    (h : (createBucketIfNotExists o).ok = false) :
    (runDemo o fs0 r0).exitCode = 1
    ∧ (runDemo o fs0 r0).trace.all
        (fun e => !(isPutCall e || isListCall e || isGetCall e)) = true := by
  rw [runDemo_bucket_fail o fs0 r0 h]
  refine ⟨rfl, ?_⟩
  have hsh := bucket_events_shape o
  rw [List.all_eq_true] at hsh ⊢
  intro e he
  have := hsh e he
  cases e <;> simp_all [isBucketPhaseEv, isPutCall, isListCall, isGetCall]

theorem c1_bucket_failure_aborts_witness :
    (createBucketIfNotExists bucketFailOracle).ok = false
    ∧ ((runDemo bucketFailOracle [] []).exitCode = 1
      ∧ (runDemo bucketFailOracle [] []).trace.all
          (fun e => !(isPutCall e || isListCall e || isGetCall e)) = true) :=
  ⟨by decide, c1_bucket_failure_aborts bucketFailOracle [] [] (by decide)⟩

/-- **C6**: in every run, a local-delete attempt for upload position `i`
appears in the trace only after the `fPutObject` at position `i` has returned
success; in particular no delete occurs for a file whose upload failed. -/
theorem c6_delete_only_after_upload_success (o : Oracle) (fs0 : FS)
    (r0 : List String) : delAfterUpload [] (runDemo o fs0 r0).trace = true := by
  have hbkt : ∀ seen, delAfterUpload seen (createBucketIfNotExists o).events = true :=
    fun seen => delAfterUpload_of_all _ isBucketPhaseEv (fun _ _ _ => rfl)
      (bucket_events_shape o) seen
  have hgen : ∀ seen, delAfterUpload seen (genOf o fs0).events = true :=
    fun seen => delAfterUpload_of_all _ isWriteEv (fun _ _ _ => rfl)
      (gen_events_shape o (numFilesOf o) 0 fs0) seen
  have hup : ∀ seen, delAfterUpload seen (upOf o fs0 r0).events = true :=
    fun seen => delAfterUpload_uploadAll o (genOf o fs0).files 0 (genOf o fs0).fs r0 seen
  have hlist : ∀ (seen : List Nat) (b : Bool) (l : List Event),
      delAfterUpload seen (Event.listEv b :: l) = delAfterUpload seen l :=
    fun _ _ _ => rfl
  have hdl : ∀ seen, delAfterUpload seen (dlOf o fs0 r0).events = true :=
    fun seen => delAfterUpload_of_all _ isDownloadPhaseEv (fun _ _ _ => rfl)
      (download_events_shape o _ 0 (upOf o fs0 r0).fs) seen
  have hextra : ∀ seen,
      delAfterUpload seen (performAdditionalOperations o (upOf o fs0 r0).remote) = true :=
    fun seen => delAfterUpload_of_all _ isExtraPhaseEv (fun _ _ _ => rfl)
      (extra_events_shape o (upOf o fs0 r0).remote) seen
  by_cases hb : (createBucketIfNotExists o).ok = true
  · by_cases hu : (upOf o fs0 r0).ok = true
    · by_cases hl : o.listOk = true
      · by_cases hd : (dlOf o fs0 r0).ok = true
        · rw [runDemo_success o fs0 r0 hb hu hl hd]
          simp [delAfterUpload_append, hbkt, hgen, hup, hlist, hdl, hextra]
        · rw [Bool.not_eq_true] at hd
          rw [runDemo_download_fail o fs0 r0 hb hu hl hd]
          simp [delAfterUpload_append, hbkt, hgen, hup, hlist, hdl]
      · rw [Bool.not_eq_true] at hl
        rw [runDemo_list_fail o fs0 r0 hb hu hl]
        have hnil : ∀ seen : List Nat, delAfterUpload seen [] = true := fun _ => rfl
        simp [delAfterUpload_append, hbkt, hgen, hup, hlist, hnil]
    · rw [Bool.not_eq_true] at hu
      rw [runDemo_upload_fail o fs0 r0 hb hu]
      simp [delAfterUpload_append, hbkt, hgen, hup]
  · rw [Bool.not_eq_true] at hb
    rw [runDemo_bucket_fail o fs0 r0 hb]
    simp [hbkt]

/-- **C5** (amended): in `demo-app.js` a failure of the local delete after a
successful upload is fatal: `unlinkSync` throws inside `uploadFile`'s `try`,
whose `catch` rethrows, so `runDemo` exits with status 1 and the listing call
is never issued. -/
theorem c5_unlink_failure_aborts (o : Oracle) (fs0 : FS) (r0 : List String)
    (i : Nat) (p : String)
    (h : Event.unlinkEv i p false ∈ (runDemo o fs0 r0).trace) :
    (runDemo o fs0 r0).exitCode = 1
    ∧ Event.listEv true ∉ (runDemo o fs0 r0).trace
    ∧ Event.listEv false ∉ (runDemo o fs0 r0).trace := by
  have hnb : Event.unlinkEv i p false ∉ (createBucketIfNotExists o).events :=
    not_mem_of_all_not _ isBucketPhaseEv _ (bucket_events_shape o) rfl
  have hng : Event.unlinkEv i p false ∉ (genOf o fs0).events :=
    not_mem_of_all_not _ isWriteEv _ (gen_events_shape o (numFilesOf o) 0 fs0) rfl
  have hnd : Event.unlinkEv i p false ∉ (dlOf o fs0 r0).events :=
    not_mem_of_all_not _ isDownloadPhaseEv _
      (download_events_shape o _ 0 (upOf o fs0 r0).fs) rfl
  have hna : Event.unlinkEv i p false ∉
      performAdditionalOperations o (upOf o fs0 r0).remote :=
    not_mem_of_all_not _ isExtraPhaseEv _ (extra_events_shape o (upOf o fs0 r0).remote) rfl
  by_cases hb : (createBucketIfNotExists o).ok = true
  · by_cases hu : (upOf o fs0 r0).ok = true
    · have hnu : Event.unlinkEv i p false ∉ (upOf o fs0 r0).events :=
        uploadAll_ok_no_unlink_fail o (genOf o fs0).files 0 (genOf o fs0).fs r0 hu i p
      by_cases hl : o.listOk = true
      · by_cases hd : (dlOf o fs0 r0).ok = true
        · rw [runDemo_success o fs0 r0 hb hu hl hd] at h
          simp only [List.mem_append, List.mem_singleton] at h
          rcases h with ((((h | h) | h) | h) | h) | h
          · exact absurd h hnb
          · exact absurd h hng
          · exact absurd h hnu
          · exact absurd h (by simp)
          · exact absurd h hnd
          · exact absurd h hna
        · rw [Bool.not_eq_true] at hd
          rw [runDemo_download_fail o fs0 r0 hb hu hl hd] at h
          simp only [List.mem_append, List.mem_singleton] at h
          rcases h with (((h | h) | h) | h) | h
          · exact absurd h hnb
          · exact absurd h hng
          · exact absurd h hnu
          · exact absurd h (by simp)
          · exact absurd h hnd
      · rw [Bool.not_eq_true] at hl
        rw [runDemo_list_fail o fs0 r0 hb hu hl] at h
        simp only [List.mem_append, List.mem_singleton] at h
        rcases h with ((h | h) | h) | h
        · exact absurd h hnb
        · exact absurd h hng
        · exact absurd h hnu
        · exact absurd h (by simp)
    · rw [Bool.not_eq_true] at hu
      rw [runDemo_upload_fail o fs0 r0 hb hu] at h ⊢
      refine ⟨rfl, ?_, ?_⟩ <;>
      · intro hm
        simp only [List.mem_append] at hm
        rcases hm with (hm | hm) | hm
        · exact absurd hm (not_mem_of_all_not _ isBucketPhaseEv _ (bucket_events_shape o) rfl)
        · exact absurd hm (not_mem_of_all_not _ isWriteEv _
            (gen_events_shape o (numFilesOf o) 0 fs0) rfl)
        · exact absurd hm (not_mem_of_all_not _ isUploadPhaseEv _
            (upload_events_shape o (genOf o fs0).files 0 (genOf o fs0).fs r0) rfl)
  · rw [Bool.not_eq_true] at hb
    rw [runDemo_bucket_fail o fs0 r0 hb] at h
    exact absurd h hnb

/-- Oracle for the C5 counterexample and witness: the first upload's transfer
succeeds but the local delete of the uploaded file fails. -/
def unlinkFailOracle : Oracle :=
  { sizeCounterOracle with unlinkOk := fun _ => false }

/-- **C5** counterexample: a run in which the first file's `fPutObject`
succeeds and its local delete fails, yet the driver does not log-and-continue:
it exits with status 1 and the listing call is never issued. -/
theorem c5_counterexample :
    Event.putEv 0 "alpha.txt" true ∈ (runDemo unlinkFailOracle [] []).trace
    ∧ Event.unlinkEv 0 "./uploads/alpha.txt" false ∈ (runDemo unlinkFailOracle [] []).trace
    ∧ (runDemo unlinkFailOracle [] []).exitCode = 1
    ∧ Event.listEv true ∉ (runDemo unlinkFailOracle [] []).trace
    ∧ Event.listEv false ∉ (runDemo unlinkFailOracle [] []).trace := by
  refine ⟨by decide, by decide, by decide, by decide, by decide⟩

theorem c5_unlink_failure_aborts_witness :
    Event.unlinkEv 0 "./uploads/alpha.txt" false ∈ (runDemo unlinkFailOracle [] []).trace
    ∧ ((runDemo unlinkFailOracle [] []).exitCode = 1
      ∧ Event.listEv true ∉ (runDemo unlinkFailOracle [] []).trace
      ∧ Event.listEv false ∉ (runDemo unlinkFailOracle [] []).trace) :=
  ⟨by decide, c5_unlink_failure_aborts unlinkFailOracle [] [] 0 "./uploads/alpha.txt"
    (by decide)⟩

/-- An event that no phase before `performAdditionalOperations` can emit lies in
the additional-operations part of the trace, and the run reached it, which
forces every earlier phase to have succeeded. -/
theorem mem_trace_extra_only (o : Oracle) (fs0 : FS) (r0 : List String) (x : Event)
    (h1 : isBucketPhaseEv x = false) (h2 : isWriteEv x = false)
    (h3 : isUploadPhaseEv x = false) (h4 : isListCall x = false)
    (h5 : isDownloadPhaseEv x = false)
    (h : x ∈ (runDemo o fs0 r0).trace) :
    (createBucketIfNotExists o).ok = true ∧ (upOf o fs0 r0).ok = true
    ∧ o.listOk = true ∧ (dlOf o fs0 r0).ok = true
    ∧ x ∈ performAdditionalOperations o (upOf o fs0 r0).remote := by
  have hnb : x ∉ (createBucketIfNotExists o).events :=
    not_mem_of_all_not _ isBucketPhaseEv _ (bucket_events_shape o) h1
  have hng : x ∉ (genOf o fs0).events :=
    not_mem_of_all_not _ isWriteEv _ (gen_events_shape o (numFilesOf o) 0 fs0) h2
  have hnu : x ∉ (upOf o fs0 r0).events :=
    not_mem_of_all_not _ isUploadPhaseEv _
      (upload_events_shape o (genOf o fs0).files 0 (genOf o fs0).fs r0) h3
  have hnl : ∀ b, x ≠ Event.listEv b := by
    intro b he
    rw [he] at h4
    simp [isListCall] at h4
  have hnd : x ∉ (dlOf o fs0 r0).events :=
    not_mem_of_all_not _ isDownloadPhaseEv _
      (download_events_shape o _ 0 (upOf o fs0 r0).fs) h5
  by_cases hb : (createBucketIfNotExists o).ok = true
  · by_cases hu : (upOf o fs0 r0).ok = true
    · by_cases hl : o.listOk = true
      · by_cases hd : (dlOf o fs0 r0).ok = true
        · rw [runDemo_success o fs0 r0 hb hu hl hd] at h
          simp only [List.mem_append, List.mem_cons] at h
          rcases h with ((((h | h) | h) | h) | h) | h
          · exact absurd h hnb
          · exact absurd h hng
          · exact absurd h hnu
          · rcases h with h | h
            · exact absurd h (hnl true)
            · simp at h
          · exact absurd h hnd
          · exact ⟨hb, hu, hl, hd, h⟩
        · rw [Bool.not_eq_true] at hd
          rw [runDemo_download_fail o fs0 r0 hb hu hl hd] at h
          simp only [List.mem_append, List.mem_cons] at h
          rcases h with (((h | h) | h) | h) | h
          · exact absurd h hnb
          · exact absurd h hng
          · exact absurd h hnu
          · rcases h with h | h
            · exact absurd h (hnl true)
            · simp at h
          · exact absurd h hnd
      · rw [Bool.not_eq_true] at hl
        rw [runDemo_list_fail o fs0 r0 hb hu hl] at h
        simp only [List.mem_append, List.mem_cons] at h
        rcases h with ((h | h) | h) | h
        · exact absurd h hnb
        · exact absurd h hng
        · exact absurd h hnu
        · rcases h with h | h
          · exact absurd h (hnl false)
          · simp at h
    · rw [Bool.not_eq_true] at hu
      rw [runDemo_upload_fail o fs0 r0 hb hu] at h
      simp only [List.mem_append] at h
      rcases h with (h | h) | h
      · exact absurd h hnb
      · exact absurd h hng
      · exact absurd h hnu
  · rw [Bool.not_eq_true] at hb
    rw [runDemo_bucket_fail o fs0 r0 hb] at h
    exact absurd h hnb

/-- **C7** (amended): the deliberate probe of key `non-existent-file.txt` never
aborts the run: whenever the probe occurs in the trace, the run exits 0 and the
remaining probe (the bucket-location fetch) is also issued; a message is
logged exactly when the probe errors, and none when it does not. -/
theorem c7_probe_never_aborts (o : Oracle) (fs0 : FS) (r0 : List String)
    (h : Event.probeEv "non-existent-file.txt" o.probeErr ∈ (runDemo o fs0 r0).trace) :
    (runDemo o fs0 r0).exitCode = 0
    ∧ Event.locationEv o.locationOk ∈ (runDemo o fs0 r0).trace
    ∧ (Event.probeLogEv ∈ (runDemo o fs0 r0).trace ↔ o.probeErr = true) := by
  obtain ⟨hb, hu, hl, hd, hin⟩ :=
    mem_trace_extra_only o fs0 r0 (Event.probeEv "non-existent-file.txt" o.probeErr)
      rfl rfl rfl rfl rfl h
  have hp : o.prefixListOk = true := by
    cases hp : o.prefixListOk
    · rw [performAdditionalOperations] at hin
      simp [hp] at hin
    · rfl
  have hloc : Event.locationEv o.locationOk ∈
      performAdditionalOperations o (upOf o fs0 r0).remote := by
    cases he : o.probeErr <;> simp [performAdditionalOperations, hp, he]
  refine ⟨?_, ?_, ?_, ?_⟩
  · rw [runDemo_success o fs0 r0 hb hu hl hd]
  · rw [runDemo_success o fs0 r0 hb hu hl hd]
    simp only [List.mem_append]
    exact Or.inr hloc
  · intro hlog
    obtain ⟨_, _, _, _, hin2⟩ :=
      mem_trace_extra_only o fs0 r0 Event.probeLogEv rfl rfl rfl rfl rfl hlog
    cases he : o.probeErr
    · rw [performAdditionalOperations] at hin2
      simp [hp, he] at hin2
    · rfl
  · intro he
    rw [runDemo_success o fs0 r0 hb hu hl hd]
    simp only [List.mem_append]
    have : Event.probeLogEv ∈ performAdditionalOperations o (upOf o fs0 r0).remote := by
      simp [performAdditionalOperations, hp, he]
    exact Or.inr this

/-- Oracle for the C7 counterexample and witness: the probe of the non-existent
key does not error (every call succeeds). -/
def probeOkOracle : Oracle :=
  { sizeCounterOracle with probeErr := false }

/-- **C7** counterexample: a run in which the probe of the non-existent key
does not error; the run continues and exits 0, but no message is logged for the
probe, refuting the claim that a message is logged for every outcome. -/
theorem c7_counterexample :
    Event.probeEv "non-existent-file.txt" false ∈ (runDemo probeOkOracle [] []).trace
    ∧ Event.probeLogEv ∉ (runDemo probeOkOracle [] []).trace
    ∧ (runDemo probeOkOracle [] []).exitCode = 0
    ∧ Event.locationEv true ∈ (runDemo probeOkOracle [] []).trace :=
  ⟨by decide, by decide, by decide, by decide⟩

theorem c7_probe_never_aborts_witness :
    Event.probeEv "non-existent-file.txt" probeOkOracle.probeErr
      ∈ (runDemo probeOkOracle [] []).trace
    ∧ ((runDemo probeOkOracle [] []).exitCode = 0
      ∧ Event.locationEv probeOkOracle.locationOk ∈ (runDemo probeOkOracle [] []).trace
      ∧ (Event.probeLogEv ∈ (runDemo probeOkOracle [] []).trace
        ↔ probeOkOracle.probeErr = true)) :=
  ⟨by decide, c7_probe_never_aborts probeOkOracle [] [] (by decide)⟩

/-- The conjunction of everything whose failure aborts a run: bucket setup,
the uploads with their local deletes, the full listing, and the downloads. -/
def setupTransferOk (o : Oracle) (fs0 : FS) (r0 : List String) : Bool :=
  (createBucketIfNotExists o).ok
    && ((upOf o fs0 r0).ok && (o.listOk && (dlOf o fs0 r0).ok))

/-- **C8** (amended): the exit status is 0 exactly when bucket setup, every
upload (including its local delete), the full listing, and every attempted
download succeed; the additional probes never influence the exit status, but a
failure of upload, listing or download after a successful bucket setup also
exits 1. -/
theorem c8_exit_zero_iff_setup_and_transfers (o : Oracle) (fs0 : FS)
    (r0 : List String) :
    (runDemo o fs0 r0).exitCode = 0 ↔ setupTransferOk o fs0 r0 = true := by
  by_cases hb : (createBucketIfNotExists o).ok = true
  · by_cases hu : (upOf o fs0 r0).ok = true
    · by_cases hl : o.listOk = true
      · by_cases hd : (dlOf o fs0 r0).ok = true
        · rw [runDemo_success o fs0 r0 hb hu hl hd]
          simp [setupTransferOk, hb, hu, hl, hd]
        · rw [Bool.not_eq_true] at hd
          rw [runDemo_download_fail o fs0 r0 hb hu hl hd]
          simp [setupTransferOk, hd]
      · rw [Bool.not_eq_true] at hl
        rw [runDemo_list_fail o fs0 r0 hb hu hl]
        simp [setupTransferOk, hl]
    · rw [Bool.not_eq_true] at hu
      rw [runDemo_upload_fail o fs0 r0 hb hu]
      simp [setupTransferOk, hu]
  · rw [Bool.not_eq_true] at hb
    rw [runDemo_bucket_fail o fs0 r0 hb]
    simp [setupTransferOk, hb]

/-- Oracle for the C8 counterexample: bucket setup succeeds but every
`fPutObject` fails. -/
def uploadFailOracle : Oracle :=
  { sizeCounterOracle with putOk := fun _ => false }

/-- **C8** counterexample: a run whose bucket setup succeeds and whose first
upload fails exits with status 1, not 0 as the claim requires. -/
theorem c8_counterexample :
    (createBucketIfNotExists uploadFailOracle).ok = true
    ∧ Event.putEv 0 "alpha.txt" false ∈ (runDemo uploadFailOracle [] []).trace
    ∧ (runDemo uploadFailOracle [] []).exitCode = 1 :=
  ⟨by decide, by decide, by decide⟩

/-- **C4** (amended): every run whose downloads all complete (exit status 0)
downloads exactly `min(2, n)` files, namely the first `min(2, n)` generated
files in upload order; a failing download instead aborts the run early. -/
theorem c4_downloads_min_two (o : Oracle) (fs0 : FS) (r0 : List String)
    (h : (runDemo o fs0 r0).exitCode = 0) :
    (runDemo o fs0 r0).downloadsDone =
      ((runDemo o fs0 r0).genFiles.take
        (min 2 (runDemo o fs0 r0).genFiles.length)).map FileRec.fileName
    ∧ (runDemo o fs0 r0).downloadsDone.length = min 2 (numFilesOf o)
    ∧ (runDemo o fs0 r0).genFiles.length = numFilesOf o := by
  by_cases hb : (createBucketIfNotExists o).ok = true
  case neg =>
    rw [Bool.not_eq_true] at hb
    rw [runDemo_bucket_fail o fs0 r0 hb] at h
    simp at h
  by_cases hu : (upOf o fs0 r0).ok = true
  case neg =>
    rw [Bool.not_eq_true] at hu
    rw [runDemo_upload_fail o fs0 r0 hb hu] at h
    simp at h
  by_cases hl : o.listOk = true
  case neg =>
    rw [Bool.not_eq_true] at hl
    rw [runDemo_list_fail o fs0 r0 hb hu hl] at h
    simp at h
  by_cases hd : (dlOf o fs0 r0).ok = true
  case neg =>
    rw [Bool.not_eq_true] at hd
    rw [runDemo_download_fail o fs0 r0 hb hu hl hd] at h
    simp at h
  have hlen : (genOf o fs0).files.length = numFilesOf o :=
    generateFilesFrom_length o (numFilesOf o) 0 fs0
  have hdone2 : (dlOf o fs0 r0).done =
      ((genOf o fs0).files.take (min 2 (genOf o fs0).files.length)).map
        FileRec.fileName :=
    downloadAll_ok_done o ((genOf o fs0).files.take (min 2 (genOf o fs0).files.length))
      0 (upOf o fs0 r0).fs hd
  rw [runDemo_success o fs0 r0 hb hu hl hd]
  refine ⟨hdone2, ?_, hlen⟩
  rw [hdone2]
  simp only [List.length_map, List.length_take, hlen]
  omega

theorem c4_downloads_min_two_witness :
    (runDemo sizeCounterOracle [] []).exitCode = 0
    ∧ ((runDemo sizeCounterOracle [] []).downloadsDone =
        ((runDemo sizeCounterOracle [] []).genFiles.take
          (min 2 (runDemo sizeCounterOracle [] []).genFiles.length)).map
            FileRec.fileName
      ∧ (runDemo sizeCounterOracle [] []).downloadsDone.length =
          min 2 (numFilesOf sizeCounterOracle)
      ∧ (runDemo sizeCounterOracle [] []).genFiles.length =
          numFilesOf sizeCounterOracle) :=
  ⟨by decide, c4_downloads_min_two sizeCounterOracle [] [] (by decide)⟩

/-! ## Lemmas about the run snapshots of the local store -/

theorem idxRange_eq_range' (k : Nat) : ∀ i, idxRange i k = List.range' i k := by
  induction k with
  | zero => intro i; rfl
  | succ k ih => intro i; rw [List.range'_succ]; simp [idxRange, ih]

theorem idxRange_zero (k : Nat) : idxRange 0 k = List.range k := by
  rw [idxRange_eq_range', List.range_eq_range' k]

theorem fsBeforeUpload_eq (o : Oracle) (fs0 : FS) (r0 : List String) (fs1 : FS)
    (hf : (runDemo o fs0 r0).fsBeforeUpload = some fs1) : fs1 = (genOf o fs0).fs := by
  by_cases hb : (createBucketIfNotExists o).ok = true
  · by_cases hu : (upOf o fs0 r0).ok = true
    · by_cases hl : o.listOk = true
      · by_cases hd : (dlOf o fs0 r0).ok = true
        · rw [runDemo_success o fs0 r0 hb hu hl hd] at hf
          simp at hf
          exact hf.symm
        · rw [Bool.not_eq_true] at hd
          rw [runDemo_download_fail o fs0 r0 hb hu hl hd] at hf
          simp at hf
          exact hf.symm
      · rw [Bool.not_eq_true] at hl
        rw [runDemo_list_fail o fs0 r0 hb hu hl] at hf
        simp at hf
        exact hf.symm
    · rw [Bool.not_eq_true] at hu
      rw [runDemo_upload_fail o fs0 r0 hb hu] at hf
      simp at hf
      exact hf.symm
  · rw [Bool.not_eq_true] at hb
    rw [runDemo_bucket_fail o fs0 r0 hb] at hf
    simp at hf

theorem fsAfterUpload_eq (o : Oracle) (fs0 : FS) (r0 : List String) (fs2 : FS)
    (hf : (runDemo o fs0 r0).fsAfterUpload = some fs2) :
    fs2 = (upOf o fs0 r0).fs ∧ (upOf o fs0 r0).ok = true := by
  by_cases hb : (createBucketIfNotExists o).ok = true
  · by_cases hu : (upOf o fs0 r0).ok = true
    · by_cases hl : o.listOk = true
      · by_cases hd : (dlOf o fs0 r0).ok = true
        · rw [runDemo_success o fs0 r0 hb hu hl hd] at hf
          simp at hf
          exact ⟨hf.symm, hu⟩
        · rw [Bool.not_eq_true] at hd
          rw [runDemo_download_fail o fs0 r0 hb hu hl hd] at hf
          simp at hf
          exact ⟨hf.symm, hu⟩
      · rw [Bool.not_eq_true] at hl
        rw [runDemo_list_fail o fs0 r0 hb hu hl] at hf
        simp at hf
        exact ⟨hf.symm, hu⟩
    · rw [Bool.not_eq_true] at hu
      rw [runDemo_upload_fail o fs0 r0 hb hu] at hf
      simp at hf
  · rw [Bool.not_eq_true] at hb
    rw [runDemo_bucket_fail o fs0 r0 hb] at hf
    simp at hf

theorem genOf_paths (o : Oracle) (fs0 : FS) :
    (genOf o fs0).files.map FileRec.filePath =
      (idxRange 0 (numFilesOf o)).map (genPath o) := by
  show (generateFilesFrom o 0 (numFilesOf o) fs0).files.map FileRec.filePath = _
  rw [generateFilesFrom_files]
  simp [List.map_map, genRec, Function.comp]

/-- **C2** (amended): the number of generated files `n` is drawn uniformly from
[1, 5] (the seed-to-value map is a bijection onto that interval); starting from
an empty upload directory, when the drawn file names are pairwise distinct
exactly `n` local files exist before the upload phase begins, and zero remain
once every upload call (with its local delete) has returned success. -/
theorem c2_generated_counts (o : Oracle) (r0 : List String)
    (hnd : ((List.range (numFilesOf o)).map
      (fun i => pathJoin uploadDir (o.nameSeed i ++ ".txt"))).Nodup) :
    (1 ≤ numFilesOf o ∧ numFilesOf o ≤ 5)
    ∧ (∀ fs1, (runDemo o [] r0).fsBeforeUpload = some fs1 →
        fs1.length = numFilesOf o)
    ∧ (∀ fs2, (runDemo o [] r0).fsAfterUpload = some fs2 → fs2.length = 0)
    ∧ (∀ k, 1 ≤ k → k ≤ 5 → ∃ s, s < 5 ∧ fakerInt 1 5 s = k)
    ∧ (∀ s t, s < 5 → t < 5 → fakerInt 1 5 s = fakerInt 1 5 t → s = t) := by
  have hnd2 : ((idxRange 0 (numFilesOf o)).map (genPath o)).Nodup := by
    rw [idxRange_zero]
    exact hnd
  have hbefore : ∀ fs1, (runDemo o [] r0).fsBeforeUpload = some fs1 →
      fs1.length = numFilesOf o := by
    intro fs1 hf
    rw [fsBeforeUpload_eq o [] r0 fs1 hf]
    show (generateFilesFrom o 0 (numFilesOf o) []).fs.length = numFilesOf o
    rw [generateFilesFrom_fs]
    rw [writeAll_length _ [] (by simpa [List.map_map, Function.comp] using hnd2)
      (fun pc _ => rfl)]
    simp [idxRange_length]
  have hafter : ∀ fs2, (runDemo o [] r0).fsAfterUpload = some fs2 →
      fs2.length = 0 := by
    intro fs2 hf
    obtain ⟨hfs, hu⟩ := fsAfterUpload_eq o [] r0 fs2 hf
    rw [hfs]
    show (uploadAll o 0 (genOf o []).files (genOf o []).fs r0).fs.length = 0
    rw [uploadAll_ok_fs o (genOf o []).files 0 (genOf o []).fs r0 hu]
    rw [← List.foldl_map FileRec.filePath fsDelete]
    rw [foldl_fsDelete_nil]
    · rfl
    · intro e he
      rw [genOf_paths o []]
      have he2 : e ∈ writeAll []
          ((idxRange 0 (numFilesOf o)).map (fun j => (genPath o j, genContent o j))) := by
        rw [← generateFilesFrom_fs]
        exact he
      rcases mem_writeAll _ [] e he2 with h | h
      · simp at h
      · simpa [List.map_map, Function.comp] using h
  refine ⟨?_, hbefore, hafter, ?_, ?_⟩
  · exact fakerInt_mem 1 5 o.numSeed (by omega)
  · intro k h1 h2
    refine ⟨k - 1, by omega, ?_⟩
    unfold fakerInt
    omega
  · intro s t hs ht he
    unfold fakerInt at he
    omega

/-- Oracle for the C2 counterexample: n = 2 but both file-name draws coincide,
so the second `writeFileSync` overwrites the first file. -/
def nameClashOracle : Oracle :=
  { sizeCounterOracle with numSeed := 1, nameSeed := fun _ => "alpha" }

/-- **C2** counterexample: a run with n = 2 in which only 1 local file exists
before the upload phase begins, because the two generated files share their
pseudo-random name and the second write overwrites the first. -/
theorem c2_counterexample :
    numFilesOf nameClashOracle = 2
    ∧ (runDemo nameClashOracle [] []).fsBeforeUpload.map List.length = some 1 :=
  ⟨by decide, by decide⟩

theorem c2_generated_counts_witness :
    ((List.range (numFilesOf sizeCounterOracle)).map
      (fun i => pathJoin uploadDir (sizeCounterOracle.nameSeed i ++ ".txt"))).Nodup
    ∧ ((1 ≤ numFilesOf sizeCounterOracle ∧ numFilesOf sizeCounterOracle ≤ 5)
      ∧ (∀ fs1, (runDemo sizeCounterOracle [] []).fsBeforeUpload = some fs1 →
          fs1.length = numFilesOf sizeCounterOracle)
      ∧ (∀ fs2, (runDemo sizeCounterOracle [] []).fsAfterUpload = some fs2 →
          fs2.length = 0)
      ∧ (∀ k, 1 ≤ k → k ≤ 5 → ∃ s, s < 5 ∧ fakerInt 1 5 s = k)
      ∧ (∀ s t, s < 5 → t < 5 → fakerInt 1 5 s = fakerInt 1 5 t → s = t)) :=
  ⟨by decide, c2_generated_counts sizeCounterOracle [] (by decide)⟩

/-- **C9** counterexample: in a fresh, fully successful run with n = 3 the
driver checks and creates the bucket `js-test-bucket`; no bucket named
`demo-bucket` is ever created. -/
theorem c9_counterexample :
    numFilesOf sizeCounterOracle = 3
    ∧ Event.makeBucketEv bucketName true ∈ (runDemo sizeCounterOracle [] []).trace
    ∧ bucketName = "js-test-bucket"
    ∧ Event.makeBucketEv "demo-bucket" true ∉ (runDemo sizeCounterOracle [] []).trace
    ∧ Event.makeBucketEv "demo-bucket" false ∉ (runDemo sizeCounterOracle [] []).trace :=
  ⟨by decide, by decide, by decide, by decide, by decide⟩

/-- Oracle for the C9 scenario: a fresh bucket, n = 3, three distinct names,
every storage call succeeds, and lorem paragraphs of 100 characters so that
each written file is 1009 bytes, inside [1000, 50000]. -/
def scenarioOracle : Oracle :=
  { sizeCounterOracle with
    para := fun _ _ =>
      "Lorem ipsum dolor sit amet, consectetur adipiscing elit, sed do eiusmod tempor incididunt ut labore." }

/-- **C9** (amended): the scenario holds with the bucket the code actually
uses, `js-test-bucket`: a fresh all-success run with n = 3 creates that bucket,
writes 3 files sized within [1000, 50000], uploads all 3 deleting each local
copy, lists 3 objects, downloads the first 2, and exits 0. -/
theorem c9_scenario :
    numFilesOf scenarioOracle = 3
    ∧ Event.makeBucketEv "js-test-bucket" true ∈ (runDemo scenarioOracle [] []).trace
    ∧ (runDemo scenarioOracle [] []).genFiles.map FileRec.size = [1009, 1009, 1009]
    ∧ 1000 ≤ 1009 ∧ 1009 ≤ 50000
    ∧ Event.putEv 0 "alpha.txt" true ∈ (runDemo scenarioOracle [] []).trace
    ∧ Event.putEv 1 "beta.txt" true ∈ (runDemo scenarioOracle [] []).trace
    ∧ Event.putEv 2 "gamma.txt" true ∈ (runDemo scenarioOracle [] []).trace
    ∧ Event.unlinkEv 0 "./uploads/alpha.txt" true ∈ (runDemo scenarioOracle [] []).trace
    ∧ Event.unlinkEv 1 "./uploads/beta.txt" true ∈ (runDemo scenarioOracle [] []).trace
    ∧ Event.unlinkEv 2 "./uploads/gamma.txt" true ∈ (runDemo scenarioOracle [] []).trace
    ∧ (runDemo scenarioOracle [] []).fsAfterUpload.map List.length = some 0
    ∧ (runDemo scenarioOracle [] []).listedCount = some 3
    ∧ (runDemo scenarioOracle [] []).downloadsDone = ["alpha.txt", "beta.txt"]
    ∧ (runDemo scenarioOracle [] []).exitCode = 0 :=
  ⟨by decide, by decide, by decide, by decide, by decide, by decide, by decide,
    by decide, by decide, by decide, by decide, by decide, by decide, by decide,
    by decide⟩

/-- Oracle for the C4 counterexample: all three uploads succeed but every
`fGetObject` fails. -/
def downloadFailOracle : Oracle :=
  { sizeCounterOracle with getOk := fun _ => false }

/-- **C4** counterexample: a run that uploads n = 3 files but whose first
download call fails: the run aborts having downloaded 0 files, not
min(2, 3) = 2. -/
theorem c4_counterexample :
    Event.putEv 0 "alpha.txt" true ∈ (runDemo downloadFailOracle [] []).trace
    ∧ Event.putEv 1 "beta.txt" true ∈ (runDemo downloadFailOracle [] []).trace
    ∧ Event.putEv 2 "gamma.txt" true ∈ (runDemo downloadFailOracle [] []).trace
    ∧ numFilesOf downloadFailOracle = 3
    ∧ (runDemo downloadFailOracle [] []).downloadsDone = []
    ∧ min 2 3 = 2
    ∧ (runDemo downloadFailOracle [] []).exitCode = 1 :=
  ⟨by decide, by decide, by decide, by decide, by decide, by decide, by decide⟩
